import Mathlib

/-!
Verification of the GiTrip version-control core: a shallow embedding of
`server/merge.js` (three-way snapshot merge), the commit/branch handlers of
`server/server.js` (push, easy-save, merge-resolve), the ancestry resolver
(`ancestorsSet` / `findLCA`) and the change classifier (`computeKeyChange`),
together with theorems settling the specification's claims about them.

JavaScript conventions are modelled as follows: `undefined`/absent object
fields become `Option`; `JSON.stringify` equality of snapshot documents
becomes structural equality of the embedded values; JS objects used as
string-keyed maps become association lists whose assignment keeps the
position of an existing key and appends a new one (matching JS key order);
JS `Set` iteration order becomes first-occurrence order of a
duplicate-free list.
-/

set_option autoImplicit false

namespace GiTrip

/-- JS string "or" (`a || b`): the empty string is falsy. -/
def orS (a b : String) : String := if a = "" then b else a

/-- Coerce an optional (possibly `undefined`) string to a string, JS-style. -/
def oStr : Option String → String
  | none => ""
  | some s => s

/-- Truthiness of an optional string (`x.id || ...`): `undefined` and `""` are falsy. -/
def idOf : Option String → Option String
  | none => none
  | some s => if s = "" then none else some s

/-- JS whitespace trim (`String.prototype.trim`). -/
def jsTrim (s : String) : String :=
  String.mk (((s.toList.dropWhile Char.isWhitespace).reverse.dropWhile Char.isWhitespace).reverse)

/-- JS lower-casing (`String.prototype.toLowerCase`). -/
def jsToLower (s : String) : String := String.mk (s.toList.map Char.toLower)

/-- First-occurrence-order deduplication: the iteration order of a JS `Set`
built by insertions. -/
def dedupAux {α : Type} [DecidableEq α] (seen : List α) : List α → List α
  | [] => []
  | x :: xs => if x ∈ seen then dedupAux seen xs else x :: dedupAux (seen ++ [x]) xs

/-- Duplicate-free list of the elements of `l`, keeping first occurrences. -/
def dedup {α : Type} [DecidableEq α] (l : List α) : List α := dedupAux [] l

/-- Association-list lookup: the value stored under key `k` (JS `obj[k]`). -/
def lookupA {β : Type} : List (String × β) → String → Option β
  | [], _ => none
  | (k', v) :: rest, k => if k' = k then some v else lookupA rest k

/-- Association-list assignment (JS `obj[k] = v`): an existing key keeps its
position, a new key is appended. -/
def setA {β : Type} : List (String × β) → String → β → List (String × β)
  | [], k, v => [(k, v)]
  | (k', v') :: rest, k, v => if k' = k then (k, v) :: rest else (k', v') :: setA rest k v

/-- Association-list deletion (JS `delete obj[k]`). -/
def delA {β : Type} (m : List (String × β)) (k : String) : List (String × β) :=
  m.filter (fun kv => decide (kv.1 ≠ k))

/-- JS `Object.fromEntries`: later duplicate keys overwrite earlier ones. -/
def fromEntries {β : Type} (ps : List (String × β)) : List (String × β) :=
  ps.foldl (fun m kv => setA m kv.1 kv.2) []

/-- Keys of a string-keyed map, in insertion order (JS `Object.keys`). -/
def keysA {β : Type} (m : List (String × β)) : List String := m.map Prod.fst

/-! ## Data model: snapshots (`{files, plan}`) -/

/-- A value stored in `snapshot.files`: a text (`some s`) or JSON `null` (`none`). -/
abbrev FVal := Option String

/-- The `files` map of a snapshot: path → text. -/
abbrev FileMap := List (String × FVal)

/-- One itinerary stop. Absent (`undefined`) JSON fields are `none`. -/
structure Stop where
  id : Option String
  name : Option String
  fullName : Option String
  lat : Option ℚ
  lng : Option ℚ
  arrive : Option String
  depart : Option String
  stayMin : Option Int
  deriving DecidableEq

/-- One itinerary day: `{id, date, stops}` (a missing `date` is modelled as `""`). -/
structure Day where
  id : Option String
  date : String
  stops : List Stop
  deriving DecidableEq

/-- An itinerary plan: `{days, transport}`. -/
structure Plan where
  days : List Day
  transport : Option String
  deriving DecidableEq

/-- A commit snapshot: `{files, plan}`. -/
structure Snapshot where
  files : FileMap
  plan : Option Plan
  deriving DecidableEq

/-- A value carried inside a conflict record: a file text (or JSON null),
a whole plan (or JSON null), or a stop object. -/
inductive CVal where
  | fileV (v : FVal)
  | planV (p : Option Plan)
  | stopV (s : Stop)
  deriving DecidableEq

/-- A merge conflict object as produced by `mergeSnapshots`. Fields the code
does not put on a given conflict kind are `none`. -/
structure Conflict where
  ctype : String
  path : Option String := none
  dayId : Option (Option String) := none
  stopId : Option String := none
  base : Option CVal := none
  ours : Option CVal := none
  theirs : Option CVal := none
  deriving DecidableEq

/-- The `file` conflict shape: `{type:'file', path, ours, theirs}` (no `base`). -/
def fileConflict (path : String) (l r : Option FVal) : Conflict :=
  { ctype := "file", path := some path, ours := l.map CVal.fileV, theirs := r.map CVal.fileV }

/-- The `plan-whole` conflict shape: `{type:'plan-whole', base, ours, theirs}`. -/
def planWholeConflict (bp op tp : Option Plan) : Conflict :=
  { ctype := "plan-whole",
    base := some (CVal.planV bp), ours := some (CVal.planV op), theirs := some (CVal.planV tp) }

/-- The per-stop conflict shape: `{type, dayId, stopId, base, ours, theirs}`. -/
def stopConflict (t : String) (dayId : Option String) (sid : String)
    (bs os ts : Option Stop) : Conflict :=
  { ctype := t, dayId := some dayId, stopId := some sid,
    base := bs.map CVal.stopV, ours := os.map CVal.stopV, theirs := ts.map CVal.stopV }

/-! ## `server/merge.js`: `diffMaps` and the file tier of `mergeSnapshots` -/

/-- Which branch changed a key, in a `diffMaps` change descriptor. -/
inductive Side where
  | L
  | R
  deriving DecidableEq

/-- A `diffMaps` change descriptor: `{key, side:'L'|'R', value}` or
`{key, side:'BOTH', left, right}`. A looked-up value is `Option FVal`
(`none` = key absent / `undefined`). -/
inductive Change where
  | take (key : String) (side : Side) (value : Option FVal)
  | both (key : String) (left right : Option FVal)
  deriving DecidableEq

/-- `diffMaps(base, left, right)` from `server/merge.js`: per-key changes of two
branch objects against a base object, by JSON equality. -/
def diffMaps (base left right : FileMap) : List Change :=
  let keys := dedup (keysA base ++ keysA left ++ keysA right)
  keys.filterMap (fun k =>
    let b := lookupA base k
    let l := lookupA left k
    let r := lookupA right k
    let changedL := decide (¬ b = l)
    let changedR := decide (¬ b = r)
    if changedL && !changedR then some (Change.take k Side.L l)
    else if !changedL && changedR then some (Change.take k Side.R r)
    else if changedL && changedR && decide (l = r) then some (Change.take k Side.L l)
    else if changedL && changedR then some (Change.both k l r)
    else none)

/-- One step of the file-change loop of `mergeSnapshots`: apply a one-sided
change (`undefined`/`null` deletes, otherwise assigns), or record a `file`
conflict and reset the path to base's value. Setting a path to base's value
when base lacks it is modelled as deletion (a JS `undefined` assignment is
dropped by the JSON round-trip every snapshot goes through). -/
def applyFileChange (baseFiles m : FileMap) : Change → FileMap × Option Conflict
  | Change.take k _ v =>
    match v with
    | none => (delA m k, none)
    | some none => (delA m k, none)
    | some (some s) => (setA m k (some s), none)
  | Change.both k l r =>
    let m' := match lookupA baseFiles k with
      | none => delA m k
      | some bv => setA m k bv
    (m', some (fileConflict k l r))

/-- The file-change loop of `mergeSnapshots`: fold the changes over a copy of
base's files, collecting `file` conflicts in order. -/
def applyFileChanges (baseFiles m : FileMap) : List Change → FileMap × List Conflict
  | [] => (m, [])
  | ch :: rest =>
    let r1 := applyFileChange baseFiles m ch
    let r2 := applyFileChanges baseFiles r1.1 rest
    (r2.1, r1.2.toList ++ r2.2)

/-! ## `server/merge.js`: plan fingerprints and similarity -/

/-- `planKeySet(plan)`: the set of `date::stopIdentity` strings fingerprinting a
plan's structure (stop identity is the trimmed name, else the id), as a
duplicate-free list in insertion order. -/
def planKeySet : Option Plan → List String
  | none => []
  | some p =>
    dedup (p.days.foldr
      (fun day acc =>
        day.stops.foldr
          (fun s acc2 =>
            let name := jsTrim (oStr s.name)
            let id := oStr s.id
            (day.date ++ "::" ++ orS name id) :: acc2)
          acc)
      [])

/-- `setsEqual(a, b)` on fingerprint sets: same size and mutual membership. -/
def setsEqual (a b : List String) : Bool :=
  decide (a.length = b.length) && a.all (fun v => b.contains v)

/-- `jaccard(a, b)`: |A ∩ B| / |A ∪ B| on fingerprint sets; 1 for two empty
sets, 0 for a degenerate empty union. -/
def jaccard (a b : List String) : ℚ :=
  if a.length = 0 ∧ b.length = 0 then 1
  else
    let inter := (a.filter (fun v => b.contains v)).length
    let union := a.length + b.length - inter
    if union = 0 then 0 else (inter : ℚ) / (union : ℚ)

/-! ## `server/merge.js`: per-day, per-stop structured merge -/

/-- Digit-string of `n` left-padded with zeros to 5 places. -/
def pad5 (n : Nat) : String :=
  let s := toString n
  if s.length ≥ 5 then s else String.mk (List.replicate (5 - s.length) '0') ++ s

/-- `Number(x).toFixed(5)`: decimal rendering of a coordinate rounded to five
decimal places. -/
def fix5 (q : ℚ) : String :=
  let n : Int := round (q * 100000)
  let a := n.natAbs
  let sign := if n < 0 then "-" else ""
  sign ++ toString (a / 100000) ++ "." ++ pad5 (a % 100000)

/-- A coordinate as it appears in a synthetic stop key: `toFixed(5)` when the
value is a finite number, `'na'` otherwise. -/
def coordStr : Option ℚ → String
  | none => "na"
  | some q => fix5 q

/-- The stable key `byKey` files a stop under: the stop's truthy `id`, else the
synthetic `auto:name|lat:..|lng:..|day:..` key. -/
def stableKey (x : Stop) (fallbackDayId : String) : String :=
  match idOf x.id with
  | some i => i
  | none =>
    let name := jsToLower (jsTrim (oStr x.name))
    "auto:" ++ orS name "stop" ++ "|lat:" ++ coordStr x.lat ++ "|lng:" ++ coordStr x.lng
      ++ "|day:" ++ orS fallbackDayId "na"

/-- The in-place mutation `if (!x.id) x.id = stableId` performed by `byKey`. -/
def assignId (fallbackDayId : String) (x : Stop) : Stop :=
  match idOf x.id with
  | some _ => x
  | none => { x with id := some (stableKey x fallbackDayId) }

/-- `byKey(arr, fallbackDayId)`: key the stops of a day by stable id. Returns
both the keyed map and the stop array as left after `byKey`'s in-place id
assignment. -/
def byKey (arr : List Stop) (fallbackDayId : String) : List (String × Stop) × List Stop :=
  let pairs := arr.map (fun x => (stableKey x fallbackDayId, assignId fallbackDayId x))
  (fromEntries pairs, pairs.map Prod.snd)

/-- Whether a stop object has no keys at all (`Object.keys(s).length == 0`). -/
def stopEmpty (s : Stop) : Bool :=
  s.id = none && s.name = none && s.fullName = none && s.lat = none && s.lng = none
    && s.arrive = none && s.depart = none && s.stayMin = none

/-- JS spread `{...t, ...o}` on stops: a key present on `o` overrides `t`. -/
def spreadStop (t o : Stop) : Stop :=
  { id := o.id <|> t.id
    name := o.name <|> t.name
    fullName := o.fullName <|> t.fullName
    lat := o.lat <|> t.lat
    lng := o.lng <|> t.lng
    arrive := o.arrive <|> t.arrive
    depart := o.depart <|> t.depart
    stayMin := o.stayMin <|> t.stayMin }

/-- The silently-merged stop `{...(ts||{}), ...(os||{})}`, dropped when it has
no keys (`Object.keys(merged).length == 0`). -/
def spreadOpt (ts os : Option Stop) : Option Stop :=
  match ts, os with
  | none, none => none
  | some t, none => if stopEmpty t then none else some t
  | none, some o => if stopEmpty o then none else some o
  | some t, some o =>
    let m := spreadStop t o
    if stopEmpty m then none else some m

/-- `timeEq(a, b)`: `a?.arrive === b?.arrive && a?.depart === b?.depart`. -/
def timeEq (a b : Option Stop) : Bool :=
  decide (a.bind Stop.arrive = b.bind Stop.arrive)
    && decide (a.bind Stop.depart = b.bind Stop.depart)

/-- The per-stop loop of `mergeSnapshots` for one day: walk the union of stop
keys, taking one-sided changes, flagging `plan-stop-delete` on delete-vs-modify
and `plan-stop-time` on diverging times, defaulting conflicted stops to base. -/
def mergeStops (sb so st : List (String × Stop)) (dayId : Option String) :
    List String → List Stop × List Conflict
  | [] => ([], [])
  | sid :: rest =>
    let bs := lookupA sb sid
    let os := lookupA so sid
    let ts := lookupA st sid
    let changedO := decide (¬ bs = os)
    let changedT := decide (¬ bs = ts)
    let sc : List Stop × List Conflict :=
      if changedO && !changedT then (os.toList, ([] : List Conflict))
      else if !changedO && changedT then (ts.toList, [])
      else if !changedO && !changedT then (bs.toList, [])
      else if (os.isSome && !ts.isSome) || (!os.isSome && ts.isSome) then
        (bs.toList, [stopConflict "plan-stop-delete" dayId sid bs os ts])
      else if timeEq os ts then ((spreadOpt ts os).toList, [])
      else (bs.toList, [stopConflict "plan-stop-time" dayId sid bs os ts])
    let r := mergeStops sb so st dayId rest
    (sc.1 ++ r.1, sc.2 ++ r.2)

/-- Find the first day with the given id (`days.find(d => d.id === dayId)`). -/
def findDay (days : List Day) (dayId : Option String) : Option Day :=
  days.find? (fun d => decide (d.id = dayId))

/-- Replace the first day with the given id (the in-place effect of mutating a
day found by `find`). -/
def replaceDay : List Day → Option String → Day → List Day
  | [], _, _ => []
  | d :: rest, dayId, nd =>
    if d.id = dayId then nd :: rest else d :: replaceDay rest dayId nd

/-- One iteration of the day loop of `mergeSnapshots`: merge the stops of one
day id across the three snapshots. Returns the three day lists as left after
`byKey`'s in-place id assignment, the merged day, and this day's conflicts. -/
def stepDay (bD oD tD : List Day) (dayId : Option String) :
    (List Day × List Day × List Day) × Day × List Conflict :=
  let b := (findDay bD dayId).getD { id := dayId, date := "", stops := [] }
  let o := (findDay oD dayId).getD { id := dayId, date := b.date, stops := [] }
  let t := (findDay tD dayId).getD { id := dayId, date := b.date, stops := [] }
  let fb := orS (oStr dayId) (orS b.date (orS o.date (orS t.date "")))
  let kb := byKey b.stops fb
  let ko := byKey o.stops fb
  let kt := byKey t.stops fb
  let stopIds := dedup (keysA kb.1 ++ keysA ko.1 ++ keysA kt.1)
  let ms := mergeStops kb.1 ko.1 kt.1 dayId stopIds
  let bD1 := if (findDay bD dayId).isSome then replaceDay bD dayId { b with stops := kb.2 } else bD
  let oD1 := if (findDay oD dayId).isSome then replaceDay oD dayId { o with stops := ko.2 } else oD
  let tD1 := if (findDay tD dayId).isSome then replaceDay tD dayId { t with stops := kt.2 } else tD
  ((bD1, oD1, tD1),
   { id := dayId, date := orS o.date (orS t.date b.date), stops := ms.1 },
   ms.2)

/-- The day loop of `mergeSnapshots` over the union of day ids, threading the
in-place mutations of the three day lists. -/
def loopDays (bD oD tD : List Day) :
    List (Option String) → (List Day × List Day × List Day) × List Day × List Conflict
  | [] => ((bD, oD, tD), [], [])
  | dayId :: rest =>
    let s := stepDay bD oD tD dayId
    let r := loopDays s.1.1 s.1.2.1 s.1.2.2 rest
    (r.1, s.2.1 :: r.2.1, s.2.2 ++ r.2.2)

/-- The days of a plan value that may be `null`: `(p && p.days) || []`. -/
def daysOf : Option Plan → List Day
  | some p => p.days
  | none => []

/-- The per-day structured merge of the plan tier (the code path taken when
the fingerprint gate allows automatic reconciliation): union all day ids,
merge each day's stops, spread top-level plan fields with theirs over ours
over base, and replace `days` with the reconciled array. -/
def mergePlanStructured (bp op tp : Option Plan) :
    Option Plan × List Conflict × (Option Plan × Option Plan × Option Plan) :=
  let daysBase := daysOf bp
  let daysOurs := daysOf op
  let daysTheirs := daysOf tp
  let dayIds := dedup (daysBase.map Day.id ++ daysOurs.map Day.id ++ daysTheirs.map Day.id)
  let L := loopDays daysBase daysOurs daysTheirs dayIds
  let transport :=
    (tp.bind Plan.transport).orElse
      (fun _ => (op.bind Plan.transport).orElse (fun _ => bp.bind Plan.transport))
  (some { days := L.2.1, transport := transport },
   L.2.2,
   (bp.map (fun p => { p with days := L.1.1 }),
    op.map (fun p => { p with days := L.1.2.1 }),
    tp.map (fun p => { p with days := L.1.2.2 })))

/-- The plan tier of `mergeSnapshots`: trivial one-side / identical cases,
then the Jaccard-gated whole-plan divergence check, then the per-day
structured merge. Returns the merged plan, the plan-tier conflicts, and the
three input plans as left after the in-place stop-id assignment. -/
def mergePlan (bp op tp : Option Plan) :
    Option Plan × List Conflict × (Option Plan × Option Plan × Option Plan) :=
  if bp = none ∧ op = none ∧ tp = none then (none, [], (bp, op, tp))
  else if bp = op ∧ ¬ bp = tp then (tp, [], (bp, op, tp))
  else if bp = tp ∧ ¬ bp = op then (op, [], (bp, op, tp))
  else if op = tp then (op, [], (bp, op, tp))
  else
    let baseKeys := planKeySet bp
    let ourKeys := planKeySet op
    let theirKeys := planKeySet tp
    let changedStructOurs := !setsEqual baseKeys ourKeys
    let changedStructTheirs := !setsEqual baseKeys theirKeys
    if changedStructOurs && changedStructTheirs && decide (jaccard ourKeys theirKeys < 2/5) then
      (bp, [planWholeConflict bp op tp], (bp, op, tp))
    else
      mergePlanStructured bp op tp

/-- Result of `mergeSnapshots`: `{snapshot, conflicts}`. -/
structure MergeOut where
  snapshot : Snapshot
  conflicts : List Conflict
  deriving DecidableEq

/-- `mergeSnapshots(base, ours, theirs)` from `server/merge.js`, together with
the three input snapshots as left after the merge (the code assigns missing
stop ids in place via `byKey`; everything else of the inputs is read-only). -/
def mergeSnapshotsFull (base ours theirs : Snapshot) :
    MergeOut × Snapshot × Snapshot × Snapshot :=
  let fr := applyFileChanges base.files base.files (diffMaps base.files ours.files theirs.files)
  let pr := mergePlan base.plan ours.plan theirs.plan
  ({ snapshot := { files := fr.1, plan := pr.1 },
     conflicts := fr.2 ++ pr.2.1 },
   { base with plan := pr.2.2.1 },
   { ours with plan := pr.2.2.2.1 },
   { theirs with plan := pr.2.2.2.2 })

/-- The observable result of `mergeSnapshots(base, ours, theirs)`. -/
def mergeSnapshots (base ours theirs : Snapshot) : MergeOut :=
  (mergeSnapshotsFull base ours theirs).1

/-! ## `server/server.js`: change classifier (`collectStopCounts`,
`diffStopCounts`, `computeKeyChange`) -/

/-- Per-plan stop statistics: occurrence counts by identity, total stop count,
day count. -/
structure StopStats where
  counts : List (String × Nat)
  total : Nat
  dayCount : Nat
  deriving DecidableEq

/-- The identity a stop is counted under: `id || fullName || name || 'stop-idx'`. -/
def stopCountKey (s : Stop) (idx : Nat) : String :=
  orS (oStr s.id) (orS (oStr s.fullName) (orS (oStr s.name) ("stop-" ++ toString idx)))

/-- `collectStopCounts(plan)`: how many times each stop identity appears. -/
def collectStopCounts (plan : Plan) : StopStats :=
  let step := fun (acc : List (String × Nat) × Nat) (day : Day) =>
    day.stops.enum.foldl
      (fun (a : List (String × Nat) × Nat) (p : Nat × Stop) =>
        let key := stopCountKey p.2 p.1
        (setA a.1 key ((lookupA a.1 key).getD 0 + 1), a.2 + 1))
      acc
  let ct := plan.days.foldl step ([], 0)
  { counts := ct.1, total := ct.2, dayCount := plan.days.length }

/-- `diffStopCounts(base, next)`: `(added, removed)` across the union of
counted identities. -/
def diffStopCounts (base next : StopStats) : Nat × Nat :=
  let allKeys := dedup (keysA base.counts ++ keysA next.counts)
  allKeys.foldl
    (fun (ar : Nat × Nat) k =>
      let a := (lookupA base.counts k).getD 0
      let b := (lookupA next.counts k).getD 0
      ((if b > a then ar.1 + (b - a) else ar.1), (if a > b then ar.2 + (a - b) else ar.2)))
    (0, 0)

/-- Key-change metadata stored on a commit: `{score, auto, reason}`
(`auto` is the 0/1 integer the code stores). -/
structure KeyChange where
  score : Nat
  auto : Nat
  reason : Option String
  deriving DecidableEq

/-- The empty plan `{days: []}` used when a snapshot has no plan. -/
def emptyPlan : Plan := { days := [], transport := none }

/-- `computeKeyChange(baseSnap, nextSnap)`: heuristic impact score and
auto-flag for key-change detection, with a human-readable reason string. -/
def computeKeyChange (baseSnap nextSnap : Option Snapshot) : KeyChange :=
  match baseSnap, nextSnap with
  | some bS, some nS =>
    let basePlan := bS.plan.getD emptyPlan
    let nextPlan := nS.plan.getD emptyPlan
    let baseStats := collectStopCounts basePlan
    let nextStats := collectStopCounts nextPlan
    let ar := diffStopCounts baseStats nextStats
    let added := ar.1
    let removed := ar.2
    let dayDelta : Int := (nextStats.dayCount : Int) - (baseStats.dayCount : Int)
    let baseTotal := baseStats.total
    let nextTotal := nextStats.total
    let pctChange : ℚ :=
      if baseTotal > 0 then |(nextTotal : ℚ) - (baseTotal : ℚ)| / (baseTotal : ℚ)
      else if nextTotal > 0 then 1 else 0
    let score := added + removed + dayDelta.natAbs * 2 + (if pctChange ≥ 3/10 then 2 else 0)
    let auto :=
      decide (added + removed ≥ 3) || decide (dayDelta.natAbs ≥ 1) || decide (pctChange ≥ 3/10)
    let reasons :=
      (if added ≠ 0 ∨ removed ≠ 0 then
        ["Stops changed: +" ++ toString added ++ " / -" ++ toString removed]
      else [])
      ++ (if dayDelta ≠ 0 then
        ["Days changed: " ++ (if dayDelta > 0 then "+" else "") ++ toString dayDelta]
      else [])
      ++ (if pctChange ≥ 3/10 then
        ["Total stops change: " ++ toString (round (pctChange * 100)) ++ "%"]
      else [])
    { score := score,
      auto := if auto then 1 else 0,
      reason := if reasons = [] then none else some (String.intercalate " • " reasons) }
  | _, _ => { score := 0, auto := 0, reason := none }

/-! ## `server/server.js`: commit store, branch registry, ancestry -/

/-- An immutable commit: parents, full snapshot, key-change metadata. -/
structure Commit where
  parents : List String
  snapshot : Snapshot
  keyChange : KeyChange
  deriving DecidableEq

/-- Persistent state of one repository: commit store (id → commit) and branch
registry (name → head commit id, `none` = NULL). -/
structure RepoState where
  commits : List (String × Commit)
  branches : List (String × Option String)
  deriving DecidableEq

/-- `insertCommitWithKeyChange`: append a commit, computing its key-change
metadata against `parents[0]`'s snapshot; a missing parent row degrades to
`score = 0` instead of failing. -/
def insertCommitWithKeyChange (st : RepoState) (id : String) (parents : List String)
    (snapshot : Snapshot) : RepoState :=
  let baseId := idOf parents.head?
  let kc :=
    match baseId with
    | some b =>
      match lookupA st.commits b with
      | some baseCommit => computeKeyChange (some baseCommit.snapshot) (some snapshot)
      | none => { score := 0, auto := 0, reason := none }
    | none => { score := 0, auto := 0, reason := none }
  { st with
    commits := setA st.commits id { parents := parents, snapshot := snapshot, keyChange := kc } }

/-- `parentsOf(row)`: a missing commit row contributes no parent edges. -/
def parentsOf (commits : List (String × Commit)) (id : String) : List String :=
  match lookupA commits id with
  | some c => c.parents
  | none => []

/-- The BFS work loop of `ancestorsSet`, with explicit fuel (the JS `while`
loop always terminates because every enqueued id is popped once and parent
edges of a commit are enqueued at most once). -/
def ancestorsSetAux (commits : List (String × Commit)) :
    Nat → List String → List String → List String
  | 0, _, seen => seen
  | _ + 1, [], seen => seen
  | fuel + 1, cur :: q, seen =>
    if cur = "" ∨ cur ∈ seen then ancestorsSetAux commits fuel q seen
    else ancestorsSetAux commits fuel (q ++ parentsOf commits cur) (seen ++ [cur])

/-- Fuel that dominates the BFS loop's iteration count: one start pop plus at
most one enqueue per parent edge stored in the commit store. -/
def graphFuel (commits : List (String × Commit)) : Nat :=
  commits.foldl (fun n kc => n + kc.2.parents.length) 0 + commits.length + 2

/-- `ancestorsSet(startId)`: BFS over parent edges collecting every reachable
commit id, the start included. -/
def ancestorsSet (commits : List (String × Commit)) (startId : String) : List String :=
  ancestorsSetAux commits (graphFuel commits) [startId] []

/-- The BFS work loop of `findLCA`: pop ids reachable from `b`, returning the
first one found in `a`'s ancestor set. -/
def findLCAAux (commits : List (String × Commit)) (anc : List String) :
    Nat → List String → List String → Option String
  | 0, _, _ => none
  | _ + 1, [], _ => none
  | fuel + 1, cur :: q, visited =>
    if cur = "" ∨ cur ∈ visited then findLCAAux commits anc fuel q visited
    else if cur ∈ anc then some cur
    else findLCAAux commits anc fuel (q ++ parentsOf commits cur) (visited ++ [cur])

/-- `findLCA(aId, bId)`: merge base of two commits — the first ancestor of `b`
(by BFS) that is also an ancestor of `a`; `none` when histories are disjoint
or an id is falsy. -/
def findLCA (commits : List (String × Commit)) (aId bId : String) : Option String :=
  if aId = "" ∨ bId = "" then none
  else findLCAAux commits (ancestorsSet commits aId) (graphFuel commits) [bId] []

/-! ## `server/server.js`: the push route (`POST /api/repos/:repoId/push`) -/

/-- Outcome of the push route, repo lookup and access control elided (they
precede everything modelled here). -/
inductive PushResult where
  | branchNotFound
  | nonFastForward (head : Option String)
  | ok (commitId : String)
  deriving DecidableEq

/-- The staleness check `br.head_commit_id !== baseCommitId`: a strict JS
comparison, so a NULL stored head also mismatches an absent expected id. -/
def pushMismatch : Option String → Option String → Bool
  | some h, some b => decide (¬ h = b)
  | some _, none => true
  | none, some _ => true
  | none, none => true

/-- The push route: compare-and-swap commit creation. On a stale
`baseCommitId` it answers `non_fast_forward` with the stored head and touches
nothing; otherwise it inserts the commit (parents = the truthy expected id)
and advances the branch head. -/
def pushHandler (st : RepoState) (branch : String) (baseCommitId : Option String)
    (snapshot : Snapshot) (newId : String) : PushResult × RepoState :=
  match lookupA st.branches branch with
  | none => (PushResult.branchNotFound, st)
  | some head =>
    if pushMismatch head baseCommitId then (PushResult.nonFastForward head, st)
    else
      let parents := (idOf baseCommitId).toList
      let st1 := insertCommitWithKeyChange st newId parents snapshot
      (PushResult.ok newId, { st1 with branches := setA st1.branches branch (some newId) })

/-! ## `server/server.js`: merge-resolve (`POST /ui/repos/:repoId/merge-resolve`) -/

/-- One user decision per conflict, as posted to merge-resolve. -/
structure Decision where
  dtype : String
  path : String := ""
  dayId : Option String := none
  stopId : String := ""
  choice : String := ""
  deriving DecidableEq

/-- Replace the first stop with the given id (`stops.find` + in-place edit). -/
def replaceFirstStop : List Stop → String → (Stop → Stop) → List Stop
  | [], _, _ => []
  | s :: rest, sid, f =>
    if s.id = some sid then f s :: rest else s :: replaceFirstStop rest sid f

/-- Remove the first stop with the given id (`stops.splice(idx, 1)`). -/
def removeFirstStop : List Stop → String → List Stop
  | [], _ => []
  | s :: rest, sid => if s.id = some sid then rest else s :: removeFirstStop rest sid

/-- The snapshot a decision's `choice` picks from: ours, theirs, or base. -/
def pickSide (baseS ourS theirS : Snapshot) (choice : String) : Snapshot :=
  if choice = "ours" then ourS else if choice = "theirs" then theirS else baseS

/-- Apply one conflict decision to the recomputed merged snapshot, mirroring
the decision loop of merge-resolve; unrecognized decision types are ignored.
Assigning a JS-`undefined` file value is modelled as deletion (it is dropped
by the JSON round-trip the committed snapshot goes through). -/
def applyDecision (baseS ourS theirS : Snapshot) (merged : Snapshot) (d : Decision) : Snapshot :=
  if d.dtype = "file" then
    let v := lookupA (pickSide baseS ourS theirS d.choice).files d.path
    { merged with
      files := match v with
        | none => delA merged.files d.path
        | some fv => setA merged.files d.path fv }
  else if d.dtype = "plan-stop-time" then
    match merged.plan with
    | none => merged
    | some p =>
      match findDay p.days d.dayId with
      | none => merged
      | some day =>
        match day.stops.find? (fun s => decide (s.id = some d.stopId)) with
        | none => merged
        | some _ =>
          let pick := pickSide baseS ourS theirS d.choice
          let ps := (pick.plan.bind (fun pp => findDay pp.days d.dayId)).bind
            (fun pd => pd.stops.find? (fun s => decide (s.id = some d.stopId)))
          match ps with
          | none => merged
          | some psv =>
            let day1 := { day with
              stops := replaceFirstStop day.stops d.stopId
                (fun s => { s with arrive := psv.arrive, depart := psv.depart }) }
            { merged with plan := some { p with days := replaceDay p.days d.dayId day1 } }
  else if d.dtype = "plan-whole" then
    let choice := orS d.choice "base"
    if choice = "ours" then { merged with plan := ourS.plan }
    else if choice = "theirs" then { merged with plan := theirS.plan }
    else { merged with plan := baseS.plan }
  else if d.dtype = "plan-stop-delete" then
    match merged.plan with
    | none => merged
    | some p =>
      match findDay p.days d.dayId with
      | none => merged
      | some day =>
        if (day.stops.find? (fun s => decide (s.id = some d.stopId))).isSome then
          let pick := pickSide baseS ourS theirS d.choice
          let ps := (pick.plan.bind (fun pp => findDay pp.days d.dayId)).bind
            (fun pd => pd.stops.find? (fun s => decide (s.id = some d.stopId)))
          let stops1 :=
            match ps with
            | some psv => replaceFirstStop day.stops d.stopId (fun _ => psv)
            | none => removeFirstStop day.stops d.stopId
          { merged with plan := some { p with days := replaceDay p.days d.dayId { day with stops := stops1 } } }
        else merged
  else merged

/-- Apply every conflict decision in order to the recomputed merge result. -/
def applyDecisions (baseS ourS theirS merged : Snapshot) (ds : List Decision) : Snapshot :=
  ds.foldl (applyDecision baseS ourS theirS) merged

/-- Outcome of the merge-resolve route. Its non-fast-forward response is a
plain text message: `reportedHead` models which commit id the response body
carries (always `none` for this route). -/
inductive ResolveResult where
  | badCommits
  | branchNotFound
  | nonFastForward (reportedHead : Option String)
  | ok (commitId : String)
  deriving DecidableEq

/-- The guard `br.head_commit_id && br.head_commit_id !== theirsId`: only a
truthy stored head can block the resolution. -/
def resolveBlocked : Option String → String → Bool
  | none, _ => false
  | some h, theirsId => if h = "" then false else decide (¬ h = theirsId)

/-- The merge-resolve route: re-fetch the three commits, recompute the merge,
apply the posted decisions, then commit with two parents after the target
branch's non-fast-forward check. -/
def mergeResolveHandler (st : RepoState) (baseId oursId theirsId targetBranch : String)
    (decisions : List Decision) (newId : String) : ResolveResult × RepoState :=
  match lookupA st.commits baseId, lookupA st.commits oursId, lookupA st.commits theirsId with
  | some baseC, some ourC, some theirC =>
    let merged0 := (mergeSnapshots baseC.snapshot ourC.snapshot theirC.snapshot).snapshot
    let merged := applyDecisions baseC.snapshot ourC.snapshot theirC.snapshot merged0 decisions
    match lookupA st.branches targetBranch with
    | none => (ResolveResult.branchNotFound, st)
    | some head =>
      if resolveBlocked head theirsId then (ResolveResult.nonFastForward none, st)
      else
        let st1 := insertCommitWithKeyChange st newId [oursId, theirsId] merged
        (ResolveResult.ok newId,
         { st1 with branches := setA st1.branches targetBranch (some newId) })
  | _, _, _ => (ResolveResult.badCommits, st)

/-! ## `server/server.js`: easy-save (`POST /api/repos/:repoId/easy-save`) -/

/-- Outcome of the easy-save route. -/
inductive EasySaveResult where
  | branchNotFound
  | nonFastForward (currentHeadId : Option String)
  | ok (commitId : String) (headBefore : Option String) (headAfter : String)
  deriving DecidableEq

/-- Whether a stop id is missing or blank (`s.id == null || String(s.id).trim() === ''`). -/
def blankId : Option String → Bool
  | none => true
  | some s => jsTrim s = ""

/-- Assign fresh uuids to the blank-id stops of one day, threading a counter
through the uuid supply. -/
def freshIds (uuids : Nat → String) : List Stop → Nat → List Stop × Nat
  | [], n => ([], n)
  | s :: rest, n =>
    if blankId s.id then
      let r := freshIds uuids rest (n + 1)
      ({ s with id := some (uuids n) } :: r.1, r.2)
    else
      let r := freshIds uuids rest n
      (s :: r.1, r.2)

/-- Assign fresh uuids to blank-id stops across all client days. -/
def freshIdsDays (uuids : Nat → String) : List Day → Nat → List Day × Nat
  | [], n => ([], n)
  | d :: rest, n =>
    let r1 := freshIds uuids d.stops n
    let r2 := freshIdsDays uuids rest r1.2
    ({ d with stops := r1.1 } :: r2.1, r2.2)

/-- The easy-save route: stale-head check only when both an expected parent id
and a resolved current head exist; otherwise commit the client plan on top of
the current head (if any) and advance the branch head unconditionally.
`uuids` supplies the fresh stop ids the route generates. -/
def easySaveHandler (st : RepoState) (branch : String) (parentId : Option String)
    (clientPlan : Option Plan) (uuids : Nat → String) (newId : String) :
    EasySaveResult × RepoState :=
  match lookupA st.branches branch with
  | none => (EasySaveResult.branchNotFound, st)
  | some brHead =>
    let head : Option Commit :=
      match idOf brHead with
      | some h => lookupA st.commits h
      | none => none
    let currentHeadId : Option String :=
      match idOf brHead with
      | some h => if (lookupA st.commits h).isSome then some h else none
      | none => none
    let expected := idOf parentId
    let blocked :=
      match expected, currentHeadId with
      | some e, some h => decide (¬ e = h)
      | _, _ => false
    if blocked then (EasySaveResult.nonFastForward currentHeadId, st)
    else
      let baseSnap :=
        match head with
        | some c => c.snapshot
        | none => { files := [], plan := some emptyPlan }
      let basePlan := baseSnap.plan.getD emptyPlan
      let clientDays :=
        match clientPlan with
        | some cp => cp.days
        | none => basePlan.days
      let clientDays1 := (freshIdsDays uuids clientDays 0).1
      let newPlan : Plan :=
        { days := clientDays1,
          transport := (clientPlan.bind Plan.transport).orElse (fun _ => basePlan.transport) }
      let newSnap := { baseSnap with plan := some newPlan }
      let st1 := insertCommitWithKeyChange st newId currentHeadId.toList newSnap
      (EasySaveResult.ok newId currentHeadId newId,
       { st1 with branches := setA st1.branches branch (some newId) })

/-! ## Statement-side predicates and concrete scenarios -/

/-- The shape invariant of the conflicts `mergeSnapshots` produces: each of the
four conflict types with the location and value fields its construction site
actually sets. -/
def conflictShape (c : Conflict) : Prop :=
  (c.ctype = "file" ∧ c.path.isSome = true ∧ c.dayId = none ∧ c.stopId = none ∧ c.base = none)
  ∨ (c.ctype = "plan-whole" ∧ c.path = none ∧ c.dayId = none ∧ c.stopId = none ∧
     c.base.isSome = true ∧ c.ours.isSome = true ∧ c.theirs.isSome = true)
  ∨ (c.ctype = "plan-stop-time" ∧ c.path = none ∧ c.dayId.isSome = true ∧ c.stopId.isSome = true ∧
     c.ours.isSome = true ∧ c.theirs.isSome = true)
  ∨ (c.ctype = "plan-stop-delete" ∧ c.path = none ∧ c.dayId.isSome = true ∧ c.stopId.isSome = true ∧
     c.base.isSome = true ∧ (c.ours.isSome = true ↔ ¬ c.theirs.isSome = true))

/-- Whether every stop of every day of a plan already has a truthy id (the
condition under which `byKey` assigns nothing in place). -/
def planHasIds : Option Plan → Bool
  | none => true
  | some p => p.days.all (fun d => d.stops.all (fun s => (idOf s.id).isSome))

/-- Percentage change in total stop count as the spec words it: a base count
of zero counts as 100% when next is non-empty. -/
def specPct (baseTotal nextTotal : Nat) : ℚ :=
  if baseTotal = 0 then (if 0 < nextTotal then 1 else 0)
  else |(nextTotal : ℚ) - (baseTotal : ℚ)| / (baseTotal : ℚ)

/-- A stop whose id and name are both `n` and whose other fields are absent. -/
def namedStop (n : String) : Stop :=
  { id := some n, name := some n, fullName := none, lat := none, lng := none,
    arrive := none, depart := none, stayMin := none }

/-- The stop of the time-conflict scenario: explicit id, arrive `ar`,
depart 11:00, stayMin `m`. -/
def c1stop (ar : String) (m : Int) : Stop :=
  { id := some "s1", name := some "Museum", fullName := none, lat := none, lng := none,
    arrive := some ar, depart := some "11:00", stayMin := some m }

/-- A one-day itinerary around `c1stop`. -/
def c1day (ar : String) (m : Int) : Day :=
  { id := some "d1", date := "2025-06-01", stops := [c1stop ar m] }

/-- A snapshot with files `f` and the one-day plan around `c1stop`. -/
def c1snap (f : FileMap) (ar : String) (m : Int) : Snapshot :=
  { files := f, plan := some { days := [c1day ar m], transport := none } }

/-- The ours side of the delete-vs-edit scenario: the day kept, its stop
deleted. -/
def c5ours (f : FileMap) : Snapshot :=
  { files := f,
    plan := some { days := [{ id := some "d1", date := "2025-06-01", stops := [] }],
                   transport := none } }

/-- A `plan-stop-delete` decision on the scenario's stop. -/
def c5dec (choice : String) : Decision :=
  { dtype := "plan-stop-delete", dayId := some "d1", stopId := "s1", choice := choice }

/-- A one-day snapshot holding the single named stop `n`. -/
def c2snap (n : String) : Snapshot :=
  { files := [],
    plan := some { days := [{ id := some "d1", date := "2025-06-01", stops := [namedStop n] }],
                   transport := none } }

/-- An id-less stop (its stable key must be synthesized and assigned in place). -/
def c6stop : Stop :=
  { id := none, name := some "Cafe", fullName := none, lat := none, lng := none,
    arrive := some "09:00", depart := some "10:00", stayMin := some 30 }

/-- A one-day snapshot around one stop. -/
def c6snap (s : Stop) : Snapshot :=
  { files := [], plan := some { days := [{ id := some "d1", date := "2025-06-01", stops := [s] }],
                                transport := none } }

/-- Base of the file-conflict scenario. -/
def c7base : Snapshot := { files := [("notes", some "base")], plan := none }

/-- Ours of the file-conflict scenario. -/
def c7ours : Snapshot := { files := [("notes", some "ours")], plan := none }

/-- Theirs of the file-conflict scenario. -/
def c7theirs : Snapshot := { files := [("notes", some "theirs")], plan := none }

/-- A two-day snapshot of named stops for the change classifier. -/
def c8snap (d1 d2 : List String) : Snapshot :=
  { files := [],
    plan := some { days := [{ id := some "d1", date := "2025-06-01", stops := d1.map namedStop },
                            { id := some "d2", date := "2025-06-02", stops := d2.map namedStop }],
                   transport := none } }

/-- Base plan of the classifier example: 5 stops over 2 days. -/
def c8base : Snapshot := c8snap ["s1","s2","s3"] ["s4","s5"]

/-- Next plan of the classifier example: the same 5 stops plus 4 new, 2 days. -/
def c8next : Snapshot := c8snap ["s1","s2","s3","s6","s7"] ["s4","s5","s8","s9"]

/-- A snapshot with no files and no plan. -/
def blankSnap : Snapshot := { files := [], plan := none }

/-- Zero key-change metadata. -/
def kcZero : KeyChange := { score := 0, auto := 0, reason := none }

/-- A root commit with a blank snapshot. -/
def c3commit : Commit := { parents := [], snapshot := blankSnap, keyChange := kcZero }

/-- A repository whose branch `main` points at head `h0` while the commits
`b0`, `o0`, `t0` of a merge in flight exist. -/
def c3state : RepoState :=
  { commits := [("b0", c3commit), ("o0", c3commit), ("t0", c3commit)],
    branches := [("main", some "h0")] }

/-- A repository with one branch `main` whose stored head is NULL. -/
def c10state : RepoState := { commits := [], branches := [("main", none)] }

/-- A deterministic uuid supply for the easy-save scenario. -/
def c10uuids (n : Nat) : String := "uuid-" ++ toString n

/-! ## Helper lemmas -/

theorem setsEqual_self (a : List String) : setsEqual a a = true := by
  simp [setsEqual, List.all_eq_true]

theorem jaccard_self (a : List String) : jaccard a a = 1 := by
  by_cases ha : a.length = 0
  · simp [jaccard, ha]
  · have hf : a.filter (fun v => a.contains v) = a := by
      apply List.filter_eq_self.mpr
      intro v hv
      exact List.elem_eq_true_of_mem hv
    rw [jaccard]
    rw [if_neg (by exact fun h => ha h.1)]
    simp only [hf]
    rw [if_neg (by omega)]
    have hu : a.length + a.length - a.length = a.length := by omega
    rw [hu]
    rw [div_self (by exact_mod_cast ha)]

theorem jaccard_singleton_ne (x y : String) (h : (x == y) = false) : jaccard [x] [y] = 0 := by
  have hf : (([x] : List String).filter (fun v => ([y] : List String).contains v)) = [] := by
    simp only [List.filter, List.contains, List.elem, h]
  rw [jaccard]
  rw [hf]
  norm_num

theorem applyFileChanges_shape (bf : FileMap) (chs : List Change) :
    ∀ m, ∀ c ∈ (applyFileChanges bf m chs).2, ∃ k l r, c = fileConflict k l r := by
  induction chs with
  | nil => intro m c hc; simp [applyFileChanges] at hc
  | cons ch rest ih =>
    intro m c hc
    simp only [applyFileChanges, List.mem_append] at hc
    rcases hc with hc | hc
    · cases ch with
      | take k s v =>
        cases v with
        | none => simp [applyFileChange] at hc
        | some fv =>
          cases fv with
          | none => simp [applyFileChange] at hc
          | some s2 => simp [applyFileChange] at hc
      | both k l r =>
        simp [applyFileChange] at hc
        exact ⟨k, l, r, hc⟩
    · exact ih _ c hc

theorem diffMaps_self_noBoth (b f : FileMap) :
    ∀ k l r, Change.both k l r ∉ diffMaps b f f := by
  intro k l r hmem
  simp only [diffMaps, List.mem_filterMap] at hmem
  obtain ⟨k2, _, heq⟩ := hmem
  by_cases hc : lookupA b k2 = lookupA f k2
  · simp [hc] at heq
  · simp [hc] at heq

theorem applyFileChanges_noBoth (bf : FileMap) (chs : List Change)
    (h : ∀ k l r, Change.both k l r ∉ chs) :
    ∀ m, (applyFileChanges bf m chs).2 = [] := by
  induction chs with
  | nil => intro m; simp [applyFileChanges]
  | cons ch rest ih =>
    intro m
    simp only [applyFileChanges]
    have hrest : ∀ k l r, Change.both k l r ∉ rest := by
      intro k l r hr
      exact h k l r (List.mem_cons_of_mem _ hr)
    rw [ih hrest]
    cases ch with
    | take k s v =>
      cases v with
      | none => simp [applyFileChange]
      | some fv => cases fv with
        | none => simp [applyFileChange]
        | some s2 => simp [applyFileChange]
    | both k l r => exact (h k l r (List.mem_cons_self _ _)).elim

theorem mergePlan_self (bp sp : Option Plan) :
    (mergePlan bp sp sp).1 = sp ∧ (mergePlan bp sp sp).2.1 = [] := by
  unfold mergePlan
  by_cases h1 : bp = none ∧ sp = none ∧ sp = none
  · rw [if_pos h1]
    exact ⟨h1.2.1.symm, rfl⟩
  · rw [if_neg h1]
    rw [if_neg (fun h => h.2 h.1)]
    rw [if_neg (fun h => h.2 h.1)]
    rw [if_pos rfl]
    exact ⟨rfl, rfl⟩

theorem mergePlan_whole (bp op tp : Option Plan)
    (hO : setsEqual (planKeySet bp) (planKeySet op) = false)
    (hT : setsEqual (planKeySet bp) (planKeySet tp) = false)
    (hJ : jaccard (planKeySet op) (planKeySet tp) < 2/5) :
    mergePlan bp op tp = (bp, [planWholeConflict bp op tp], (bp, op, tp)) := by
  have hbo : ¬ bp = op := by
    intro h; rw [h, setsEqual_self] at hO; cases hO
  have hbt : ¬ bp = tp := by
    intro h; rw [h, setsEqual_self] at hT; cases hT
  have hot : ¬ op = tp := by
    intro h; rw [h, jaccard_self] at hJ; norm_num at hJ
  unfold mergePlan
  rw [if_neg (fun hh => hbo (hh.1.trans hh.2.1.symm))]
  rw [if_neg (fun hh => hbo hh.1)]
  rw [if_neg (fun hh => hbt hh.1)]
  rw [if_neg hot]
  simp only [hO, hT, decide_eq_true hJ, Bool.not_false, Bool.true_and, Bool.and_true, if_true]

theorem filter_planTier_file (bf m : FileMap) (chs : List Change) :
    ((applyFileChanges bf m chs).2.filter (fun c => decide (¬ c.ctype = "file"))) = [] := by
  rw [List.filter_eq_nil_iff]
  intro c hc
  obtain ⟨k, l, r, rfl⟩ := applyFileChanges_shape bf chs m c hc
  simp [fileConflict]

theorem stopConflict_delete_shape (dayId : Option String) (sid : String) (bs os ts : Option Stop)
    (hO : ¬ bs = os) (hT : ¬ bs = ts)
    (hx : (os.isSome && !ts.isSome || !os.isSome && ts.isSome) = true) :
    conflictShape (stopConflict "plan-stop-delete" dayId sid bs os ts) := by
  right; right; right
  cases os with
  | some o =>
    cases ts with
    | some t => simp at hx
    | none =>
      cases bs with
      | none => exact absurd rfl hT
      | some b => simp [stopConflict, conflictShape]
  | none =>
    cases ts with
    | none => simp at hx
    | some t =>
      cases bs with
      | none => exact absurd rfl hO
      | some b => simp [stopConflict, conflictShape]

theorem stopConflict_time_shape (dayId : Option String) (sid : String) (bs os ts : Option Stop)
    (hnx : ¬ (os.isSome && !ts.isSome || !os.isSome && ts.isSome) = true)
    (hnt : ¬ timeEq os ts = true) :
    conflictShape (stopConflict "plan-stop-time" dayId sid bs os ts) := by
  right; right; left
  cases os with
  | none =>
    cases ts with
    | none => exact absurd rfl hnt
    | some t => exact absurd rfl hnx
  | some o =>
    cases ts with
    | none => exact absurd rfl hnx
    | some t => simp [stopConflict, conflictShape]

theorem mergeStops_shape (sb so st : List (String × Stop)) (dayId : Option String)
    (sids : List String) : ∀ c ∈ (mergeStops sb so st dayId sids).2, conflictShape c := by
  induction sids with
  | nil => intro c hc; simp [mergeStops] at hc
  | cons sid rest ih =>
    intro c hc
    simp only [mergeStops, List.mem_append] at hc
    rcases hc with hc | hc
    · split at hc
      next => simp at hc
      next h1 =>
        split at hc
        next => simp at hc
        next h2 =>
          split at hc
          next => simp at hc
          next h3 =>
            split at hc
            next h4 =>
              simp only [List.mem_singleton] at hc
              subst hc
              have hOT : ¬ lookupA sb sid = lookupA so sid ∧ ¬ lookupA sb sid = lookupA st sid := by
                cases e1 : decide (¬ lookupA sb sid = lookupA so sid) <;>
                  cases e2 : decide (¬ lookupA sb sid = lookupA st sid)
                · simp [e1, e2] at h3
                · simp [e1, e2] at h2
                · simp [e1, e2] at h1
                · exact ⟨of_decide_eq_true e1, of_decide_eq_true e2⟩
              exact stopConflict_delete_shape dayId sid _ _ _ hOT.1 hOT.2 h4
            next h4 =>
              split at hc
              next => simp at hc
              next h5 =>
                simp only [List.mem_singleton] at hc
                subst hc
                exact stopConflict_time_shape dayId sid _ _ _ h4 h5
    · exact ih c hc

theorem loopDays_shape (dayIds : List (Option String)) :
    ∀ bD oD tD, ∀ c ∈ (loopDays bD oD tD dayIds).2.2, conflictShape c := by
  induction dayIds with
  | nil => intro bD oD tD c hc; simp [loopDays] at hc
  | cons dayId rest ih =>
    intro bD oD tD c hc
    simp only [loopDays, List.mem_append] at hc
    rcases hc with hc | hc
    · exact mergeStops_shape _ _ _ dayId _ c hc
    · exact ih _ _ _ c hc

theorem mergePlanStructured_shape (bp op tp : Option Plan) :
    ∀ c ∈ (mergePlanStructured bp op tp).2.1, conflictShape c := by
  intro c hc
  exact loopDays_shape _ _ _ _ c hc

theorem mergePlan_shape (bp op tp : Option Plan) :
    ∀ c ∈ (mergePlan bp op tp).2.1, conflictShape c := by
  intro c hc
  unfold mergePlan at hc
  split at hc
  · simp at hc
  · split at hc
    · simp at hc
    · split at hc
      · simp at hc
      · split at hc
        · simp at hc
        · simp only [] at hc
          split at hc
          · simp only [List.mem_singleton] at hc
            subst hc
            right; left
            simp [planWholeConflict, conflictShape]
          · exact mergePlanStructured_shape _ _ _ c hc

theorem assignId_id (fb : String) (s : Stop) (h : (idOf s.id).isSome = true) :
    assignId fb s = s := by
  unfold assignId
  split
  next => rfl
  next heq => rw [heq] at h; simp at h

theorem byKey_id (arr : List Stop) (fb : String)
    (h : ∀ s ∈ arr, (idOf s.id).isSome = true) : (byKey arr fb).2 = arr := by
  show (arr.map (fun x => (stableKey x fb, assignId fb x))).map Prod.snd = arr
  rw [List.map_map]
  induction arr with
  | nil => rfl
  | cons s rest ih =>
    simp only [List.map_cons]
    rw [show (Prod.snd ∘ fun x => (stableKey x fb, assignId fb x)) s = assignId fb s from rfl]
    rw [assignId_id fb s (h s (List.mem_cons_self _ _))]
    rw [ih (fun x hx => h x (List.mem_cons_of_mem _ hx))]

theorem replaceDay_self (days : List Day) (dayId : Option String) (d : Day)
    (h : findDay days dayId = some d) : replaceDay days dayId d = days := by
  induction days with
  | nil => simp [findDay] at h
  | cons hd tl ih =>
    unfold findDay at h
    rw [List.find?] at h
    unfold replaceDay
    cases e : decide (hd.id = dayId) with
    | true =>
      rw [e] at h
      simp at h
      rw [if_pos (of_decide_eq_true e), h]
    | false =>
      rw [e] at h
      simp only [Bool.false_eq_true, cond_false] at h
      rw [if_neg (of_decide_eq_false e)]
      rw [ih h]

theorem dayListUpdate_frame (days : List Day) (dayId : Option String) (fb : String) (dflt : Day)
    (h : ∀ d ∈ days, ∀ s ∈ d.stops, (idOf s.id).isSome = true) :
    (if (findDay days dayId).isSome = true then
       replaceDay days dayId
         { (findDay days dayId).getD dflt with
           stops := (byKey ((findDay days dayId).getD dflt).stops fb).2 }
     else days) = days := by
  cases e : findDay days dayId with
  | none => simp [e]
  | some d =>
    have hd : d ∈ days := List.mem_of_find?_eq_some e
    have hstops : (byKey d.stops fb).2 = d.stops := byKey_id _ _ (fun s hs => h d hd s hs)
    simp only [Option.isSome_some, if_true, Option.getD_some]
    rw [hstops]
    exact replaceDay_self days dayId d e

theorem stepDay_frame (bD oD tD : List Day) (dayId : Option String)
    (hb : ∀ d ∈ bD, ∀ s ∈ d.stops, (idOf s.id).isSome = true)
    (ho : ∀ d ∈ oD, ∀ s ∈ d.stops, (idOf s.id).isSome = true)
    (ht : ∀ d ∈ tD, ∀ s ∈ d.stops, (idOf s.id).isSome = true) :
    (stepDay bD oD tD dayId).1 = (bD, oD, tD) := by
  unfold stepDay
  simp only [Prod.mk.injEq]
  refine ⟨?_, ?_, ?_⟩
  · exact dayListUpdate_frame bD dayId _ _ hb
  · exact dayListUpdate_frame oD dayId _ _ ho
  · exact dayListUpdate_frame tD dayId _ _ ht

theorem loopDays_frame (dayIds : List (Option String)) :
    ∀ bD oD tD,
    (∀ d ∈ bD, ∀ s ∈ d.stops, (idOf s.id).isSome = true) →
    (∀ d ∈ oD, ∀ s ∈ d.stops, (idOf s.id).isSome = true) →
    (∀ d ∈ tD, ∀ s ∈ d.stops, (idOf s.id).isSome = true) →
    (loopDays bD oD tD dayIds).1 = (bD, oD, tD) := by
  induction dayIds with
  | nil => intro bD oD tD _ _ _; rfl
  | cons dayId rest ih =>
    intro bD oD tD hb ho ht
    have hs := stepDay_frame bD oD tD dayId hb ho ht
    have h1 : (stepDay bD oD tD dayId).1.1 = bD := by rw [hs]
    have h2 : (stepDay bD oD tD dayId).1.2.1 = oD := by rw [hs]
    have h3 : (stepDay bD oD tD dayId).1.2.2 = tD := by rw [hs]
    show (loopDays (stepDay bD oD tD dayId).1.1 (stepDay bD oD tD dayId).1.2.1
      (stepDay bD oD tD dayId).1.2.2 rest).1 = (bD, oD, tD)
    rw [h1, h2, h3]
    exact ih bD oD tD hb ho ht

theorem planHasIds_days (p : Option Plan) (h : planHasIds p = true) :
    ∀ d ∈ daysOf p, ∀ s ∈ d.stops, (idOf s.id).isSome = true := by
  cases p with
  | none => intro d hd; simp [daysOf] at hd
  | some pl =>
    intro d hd s hs
    simp only [planHasIds, List.all_eq_true] at h
    exact h d hd s hs

theorem mergePlanStructured_frame (bp op tp : Option Plan)
    (hb : planHasIds bp = true) (ho : planHasIds op = true) (ht : planHasIds tp = true) :
    (mergePlanStructured bp op tp).2.2 = (bp, op, tp) := by
  unfold mergePlanStructured
  have hL := loopDays_frame
    (dedup ((daysOf bp).map Day.id ++ (daysOf op).map Day.id ++ (daysOf tp).map Day.id))
    (daysOf bp) (daysOf op) (daysOf tp)
    (planHasIds_days bp hb) (planHasIds_days op ho) (planHasIds_days tp ht)
  simp only [Prod.mk.injEq]
  refine ⟨?_, ?_, ?_⟩
  · rw [show (loopDays (daysOf bp) (daysOf op) (daysOf tp)
        (dedup ((daysOf bp).map Day.id ++ (daysOf op).map Day.id ++ (daysOf tp).map Day.id))).1.1
        = daysOf bp from by rw [hL]]
    cases bp with
    | none => rfl
    | some p => rfl
  · rw [show (loopDays (daysOf bp) (daysOf op) (daysOf tp)
        (dedup ((daysOf bp).map Day.id ++ (daysOf op).map Day.id ++ (daysOf tp).map Day.id))).1.2.1
        = daysOf op from by rw [hL]]
    cases op with
    | none => rfl
    | some p => rfl
  · rw [show (loopDays (daysOf bp) (daysOf op) (daysOf tp)
        (dedup ((daysOf bp).map Day.id ++ (daysOf op).map Day.id ++ (daysOf tp).map Day.id))).1.2.2
        = daysOf tp from by rw [hL]]
    cases tp with
    | none => rfl
    | some p => rfl

theorem mergePlan_frame (bp op tp : Option Plan)
    (hb : planHasIds bp = true) (ho : planHasIds op = true) (ht : planHasIds tp = true) :
    (mergePlan bp op tp).2.2 = (bp, op, tp) := by
  unfold mergePlan
  split
  · rfl
  · split
    · rfl
    · split
      · rfl
      · split
        · rfl
        · simp only []
          split
          · rfl
          · exact mergePlanStructured_frame bp op tp hb ho ht

theorem ancestorsSetAux_stop (commits : List (String × Commit)) (fuel : Nat) (seen : List String) :
    ancestorsSetAux commits fuel [] seen = seen := by
  cases fuel <;> rfl

theorem ancestorsSetAux_visit (commits : List (String × Commit)) (fuel : Nat)
    (cur : String) (q seen : List String) (h : ¬ (cur = "" ∨ cur ∈ seen)) :
    ancestorsSetAux commits (fuel + 1) (cur :: q) seen
      = ancestorsSetAux commits fuel (q ++ parentsOf commits cur) (seen ++ [cur]) := by
  show (if cur = "" ∨ cur ∈ seen then ancestorsSetAux commits fuel q seen
        else ancestorsSetAux commits fuel (q ++ parentsOf commits cur) (seen ++ [cur])) = _
  rw [if_neg h]

theorem findLCAAux_found (commits : List (String × Commit)) (anc : List String) (fuel : Nat)
    (cur : String) (q visited : List String)
    (h1 : ¬ (cur = "" ∨ cur ∈ visited)) (h2 : cur ∈ anc) :
    findLCAAux commits anc (fuel + 1) (cur :: q) visited = some cur := by
  show (if cur = "" ∨ cur ∈ visited then findLCAAux commits anc fuel q visited
        else if cur ∈ anc then some cur
        else findLCAAux commits anc fuel (q ++ parentsOf commits cur) (visited ++ [cur])) = _
  rw [if_neg h1, if_pos h2]

theorem findLCAAux_visit (commits : List (String × Commit)) (anc : List String) (fuel : Nat)
    (cur : String) (q visited : List String)
    (h1 : ¬ (cur = "" ∨ cur ∈ visited)) (h2 : cur ∉ anc) :
    findLCAAux commits anc (fuel + 1) (cur :: q) visited
      = findLCAAux commits anc fuel (q ++ parentsOf commits cur) (visited ++ [cur]) := by
  show (if cur = "" ∨ cur ∈ visited then findLCAAux commits anc fuel q visited
        else if cur ∈ anc then some cur
        else findLCAAux commits anc fuel (q ++ parentsOf commits cur) (visited ++ [cur])) = _
  rw [if_neg h1, if_neg h2]

theorem lookupA_setA_self {β : Type} (m : List (String × β)) (k : String) (v : β) :
    lookupA (setA m k v) k = some v := by
  induction m with
  | nil => simp [setA, lookupA]
  | cons kv rest ih =>
    by_cases e : kv.1 = k
    · simp [setA, e, lookupA]
    · show lookupA (if kv.1 = k then (k, v) :: rest else (kv.1, kv.2) :: setA rest k v) k = some v
      rw [if_neg e]
      show (if kv.1 = k then some kv.2 else lookupA (setA rest k v) k) = some v
      rw [if_neg e, ih]

theorem ite_one_zero_eq_one (c : Bool) : (if c = true then (1:Nat) else 0) = 1 ↔ c = true := by
  cases c <;> simp

theorem computeKeyChange_formula (b n : Snapshot) :
    (computeKeyChange (some b) (some n)).score
      = (diffStopCounts (collectStopCounts (b.plan.getD emptyPlan))
           (collectStopCounts (n.plan.getD emptyPlan))).1
        + (diffStopCounts (collectStopCounts (b.plan.getD emptyPlan))
             (collectStopCounts (n.plan.getD emptyPlan))).2
        + 2 * (((collectStopCounts (n.plan.getD emptyPlan)).dayCount : Int)
             - ((collectStopCounts (b.plan.getD emptyPlan)).dayCount : Int)).natAbs
        + (if specPct (collectStopCounts (b.plan.getD emptyPlan)).total
              (collectStopCounts (n.plan.getD emptyPlan)).total ≥ 3/10 then 2 else 0)
    ∧ ((computeKeyChange (some b) (some n)).auto = 1 ↔
        ((diffStopCounts (collectStopCounts (b.plan.getD emptyPlan))
            (collectStopCounts (n.plan.getD emptyPlan))).1
         + (diffStopCounts (collectStopCounts (b.plan.getD emptyPlan))
              (collectStopCounts (n.plan.getD emptyPlan))).2 ≥ 3)
        ∨ ((((collectStopCounts (n.plan.getD emptyPlan)).dayCount : Int)
             - ((collectStopCounts (b.plan.getD emptyPlan)).dayCount : Int)).natAbs ≥ 1)
        ∨ specPct (collectStopCounts (b.plan.getD emptyPlan)).total
            (collectStopCounts (n.plan.getD emptyPlan)).total ≥ 3/10) := by
  have hpct : (if (collectStopCounts (b.plan.getD emptyPlan)).total > 0 then
        |((collectStopCounts (n.plan.getD emptyPlan)).total : ℚ)
          - ((collectStopCounts (b.plan.getD emptyPlan)).total : ℚ)|
          / ((collectStopCounts (b.plan.getD emptyPlan)).total : ℚ)
      else if (collectStopCounts (n.plan.getD emptyPlan)).total > 0 then 1 else 0)
      = specPct (collectStopCounts (b.plan.getD emptyPlan)).total
          (collectStopCounts (n.plan.getD emptyPlan)).total := by
    unfold specPct
    by_cases hb0 : (collectStopCounts (b.plan.getD emptyPlan)).total = 0
    · simp [hb0]
    · rw [if_pos (Nat.pos_of_ne_zero hb0), if_neg hb0]
  unfold computeKeyChange
  simp only [hpct]
  constructor
  · ring
  · rw [ite_one_zero_eq_one]
    simp only [Bool.or_eq_true, decide_eq_true_eq]
    tauto

theorem computeKeyChange_example :
    4 ≤ (computeKeyChange (some c8base) (some c8next)).score
    ∧ (computeKeyChange (some c8base) (some c8next)).auto = 1
    ∧ (∃ pre post, (computeKeyChange (some c8base) (some c8next)).reason
        = some (pre ++ "Stops changed: +4 / -0" ++ post)) := by
  have h1 : collectStopCounts (c8base.plan.getD emptyPlan)
      = { counts := [("s1",1),("s2",1),("s3",1),("s4",1),("s5",1)], total := 5, dayCount := 2 } := by
    decide
  have h2 : collectStopCounts (c8next.plan.getD emptyPlan)
      = { counts := [("s1",1),("s2",1),("s3",1),("s6",1),("s7",1),("s4",1),("s5",1),("s8",1),("s9",1)],
          total := 9, dayCount := 2 } := by
    decide
  have h3 : diffStopCounts
      { counts := [("s1",1),("s2",1),("s3",1),("s4",1),("s5",1)], total := 5, dayCount := 2 }
      { counts := [("s1",1),("s2",1),("s3",1),("s6",1),("s7",1),("s4",1),("s5",1),("s8",1),("s9",1)],
        total := 9, dayCount := 2 } = (4, 0) := by
    decide
  unfold computeKeyChange
  simp only []
  rw [h1, h2, h3]
  simp only []
  have hpc : (if (5:Nat) > 0 then |((9:Nat):ℚ) - ((5:Nat):ℚ)| / ((5:Nat):ℚ)
      else if (9:Nat) > 0 then 1 else 0) = 4/5 := by
    norm_num
  have hdd : ((2:Nat):Int) - ((2:Nat):Int) = 0 := by norm_num
  rw [hpc, hdd]
  have hge : ((4:ℚ)/5 ≥ 3/10) := by norm_num
  refine ⟨?_, ?_, ?_⟩
  · rw [if_pos hge]
    decide
  · simp only [show decide ((4:Nat) + 0 ≥ 3) = true from rfl, Bool.true_or]
    decide
  · rw [if_pos (show (4:Nat) ≠ 0 ∨ (0:Nat) ≠ 0 from Or.inl (by norm_num))]
    rw [if_neg (show ¬ ((0:Int) ≠ 0) from by norm_num)]
    rw [if_pos hge]
    have hrd : round ((4:ℚ)/5 * 100) = 80 := by
      rw [show ((4:ℚ)/5 * 100) = ((80:Int) : ℚ) from by norm_num]
      exact round_intCast 80
    rw [hrd]
    refine ⟨"", " • Total stops change: 80%", ?_⟩
    decide

/-! ## Claims -/

/-- Claim C1, counterexample. At a concrete instance of the claim scenario
(base stop arrives 10:00 and departs 11:00 with stayMin 60; ours changes only
arrive to 10:30; theirs changes only stayMin to 90) threeWayMerge is NOT
automatic: it emits one plan-stop-time conflict and the merged plan keeps
base's stop, so the claim's "zero conflicts, theirs' stayMin with ours'
times" is false on the code. -/
theorem C1_counterexample :
    (mergeSnapshots (c1snap [] "10:00" 60) (c1snap [] "10:30" 60)
        (c1snap [] "10:00" 90)).conflicts.map Conflict.ctype = ["plan-stop-time"]
    ∧ (mergeSnapshots (c1snap [] "10:00" 60) (c1snap [] "10:30" 60)
        (c1snap [] "10:00" 90)).snapshot.plan
      = some { days := [c1day "10:00" 60], transport := none } := by
  decide

/-- Claim C1, amended. If the base snapshot has a stop arriving 10:00 and
departing 11:00, ours changes only that stop's arrive time to 10:30, and
theirs changes only its stayMin, then because ours' and theirs' arrive/depart
do not match exactly, threeWayMerge emits exactly one conflict, of type
plan-stop-time carrying the base, ours and theirs stops, and the merged plan
keeps base's stop (neither theirs' stayMin nor ours' arrive is taken). -/
theorem C1_theorem (f : FileMap) (m m2 : Int) (hne : ¬ m = m2) :
    (mergeSnapshots (c1snap f "10:00" m) (c1snap f "10:30" m) (c1snap f "10:00" m2)).conflicts
      = [stopConflict "plan-stop-time" (some "d1") "s1"
          (some (c1stop "10:00" m)) (some (c1stop "10:30" m)) (some (c1stop "10:00" m2))]
    ∧ (mergeSnapshots (c1snap f "10:00" m) (c1snap f "10:30" m) (c1snap f "10:00" m2)).snapshot.plan
      = some { days := [c1day "10:00" m], transport := none } := by
  have hfiles : (applyFileChanges f f (diffMaps f f f)).2 = [] :=
    applyFileChanges_noBoth _ _ (diffMaps_self_noBoth _ _) _
  have hbo : ¬ (c1snap f "10:00" m).plan = (c1snap f "10:30" m).plan := by
    simp [c1snap, c1day, c1stop]
  have hbt : ¬ (c1snap f "10:00" m).plan = (c1snap f "10:00" m2).plan := by
    simp [c1snap, c1day, c1stop, hne]
  have hot : ¬ (c1snap f "10:30" m).plan = (c1snap f "10:00" m2).plan := by
    simp [c1snap, c1day, c1stop]
  have hct : decide (¬ (some (c1stop "10:00" m) : Option Stop) = some (c1stop "10:00" m2)) = true := by
    simp [c1stop, hne]
  have hplan : mergePlan (c1snap f "10:00" m).plan (c1snap f "10:30" m).plan (c1snap f "10:00" m2).plan
      = (some { days := [c1day "10:00" m], transport := none },
         [stopConflict "plan-stop-time" (some "d1") "s1"
          (some (c1stop "10:00" m)) (some (c1stop "10:30" m)) (some (c1stop "10:00" m2))],
         ((c1snap f "10:00" m).plan, (c1snap f "10:30" m).plan, (c1snap f "10:00" m2).plan)) := by
    unfold mergePlan
    rw [if_neg (by simp [c1snap])]
    rw [if_neg (fun hh => hbo hh.1)]
    rw [if_neg (fun hh => hbt hh.1)]
    rw [if_neg hot]
    have hk1 : planKeySet (c1snap f "10:00" m).plan = planKeySet (c1snap f "10:30" m).plan := rfl
    rw [← hk1]
    simp only [setsEqual_self, Bool.not_true, Bool.false_and, Bool.false_eq_true, if_false]
    simp only [mergePlanStructured, daysOf, loopDays, stepDay, mergeStops, hct]
    simp [c1snap, c1day, c1stop, byKey, stableKey, assignId, idOf, dedup, dedupAux, keysA,
      fromEntries, setA, lookupA, findDay, timeEq, orS, oStr, spreadOpt, spreadStop, stopConflict,
      replaceDay, stopEmpty, hne]
  constructor
  · show (applyFileChanges f f (diffMaps f f f)).2
      ++ (mergePlan (c1snap f "10:00" m).plan (c1snap f "10:30" m).plan
            (c1snap f "10:00" m2).plan).2.1 = _
    rw [hfiles, hplan]
    rfl
  · show (mergePlan (c1snap f "10:00" m).plan (c1snap f "10:30" m).plan
        (c1snap f "10:00" m2).plan).1 = _
    rw [hplan]

/-- Claim C1, witness. The amended theorem applied at empty files and
stayMin values 60 and 90. -/
theorem C1_witness :
    (mergeSnapshots (c1snap [] "10:00" 60) (c1snap [] "10:30" 60) (c1snap [] "10:00" 90)).conflicts
      = [stopConflict "plan-stop-time" (some "d1") "s1"
          (some (c1stop "10:00" 60)) (some (c1stop "10:30" 60)) (some (c1stop "10:00" 90))]
    ∧ (mergeSnapshots (c1snap [] "10:00" 60) (c1snap [] "10:30" 60)
        (c1snap [] "10:00" 90)).snapshot.plan
      = some { days := [c1day "10:00" 60], transport := none } :=
  C1_theorem [] 60 90 (by decide)

/-- Claim C2. For every base/ours/theirs trio in which both sides changed the
plan's structural fingerprint (the planKeySet of date::stopIdentity keys)
relative to base and the Jaccard similarity of ours' and theirs' fingerprints
is strictly below 0.4, threeWayMerge emits exactly one plan-tier conflict, of
type plan-whole (no per-stop conflict), and sets the merged snapshot's plan
to base's plan. -/
theorem C2_theorem (b o t : Snapshot)
    (hO : setsEqual (planKeySet b.plan) (planKeySet o.plan) = false)
    (hT : setsEqual (planKeySet b.plan) (planKeySet t.plan) = false)
    (hJ : jaccard (planKeySet o.plan) (planKeySet t.plan) < 2/5) :
    ((mergeSnapshots b o t).conflicts.filter (fun c => decide (¬ c.ctype = "file")))
      = [planWholeConflict b.plan o.plan t.plan]
    ∧ (mergeSnapshots b o t).snapshot.plan = b.plan := by
  have hplan := mergePlan_whole b.plan o.plan t.plan hO hT hJ
  constructor
  · show ((applyFileChanges b.files b.files (diffMaps b.files o.files t.files)).2
        ++ (mergePlan b.plan o.plan t.plan).2.1).filter (fun c => decide (¬ c.ctype = "file")) = _
    rw [List.filter_append, filter_planTier_file, hplan]
    simp [planWholeConflict]
  · show (mergePlan b.plan o.plan t.plan).1 = b.plan
    rw [hplan]

/-- Claim C2, witness. Three one-stop plans with pairwise different stop
names: both fingerprints changed, Jaccard 0 below 0.4, one plan-whole
conflict, merged plan is base's. -/
theorem C2_witness :
    jaccard (planKeySet (c2snap "b").plan) (planKeySet (c2snap "c").plan) < 2/5
    ∧ ((mergeSnapshots (c2snap "a") (c2snap "b") (c2snap "c")).conflicts.filter
        (fun c => decide (¬ c.ctype = "file")))
      = [planWholeConflict (c2snap "a").plan (c2snap "b").plan (c2snap "c").plan]
    ∧ (mergeSnapshots (c2snap "a") (c2snap "b") (c2snap "c")).snapshot.plan
      = (c2snap "a").plan := by
  have hJ : jaccard (planKeySet (c2snap "b").plan) (planKeySet (c2snap "c").plan) < 2/5 := by
    rw [show planKeySet (c2snap "b").plan = ["2025-06-01::b"] from by decide,
        show planKeySet (c2snap "c").plan = ["2025-06-01::c"] from by decide,
        jaccard_singleton_ne _ _ (by decide)]
    norm_num
  have hres := C2_theorem (c2snap "a") (c2snap "b") (c2snap "c") (by decide) (by decide) hJ
  exact ⟨hJ, hres.1, hres.2⟩

/-- Claim C3, counterexample. The merge-resolve route's stale-head failure is
a plain 409 text response that carries no commit id: on a repository whose
target branch head h0 differs from theirsId t0, the handler answers
NonFastForward reporting no head, not NonFastForward(h0), so the claim's
"reporting the current head" is false for that write. -/
theorem C3_counterexample :
    (mergeResolveHandler c3state "b0" "o0" "t0" "main" [] "n0").1
      = ResolveResult.nonFastForward none
    ∧ ¬ (mergeResolveHandler c3state "b0" "o0" "t0" "main" [] "n0").1
        = ResolveResult.nonFastForward (some "h0") := by
  decide

/-- Claim C3, amended. For every branch with a stored head and every write
supplying an expected prior head id different from it, the head advance fails
with NonFastForward and the repository state is unchanged (the stored head
keeps its value and no commit is created): the push route reports the current
head in its response, while the merge-resolve route reports no head. -/
theorem C3_theorem (st : RepoState) (branch : String) (e h : String) (snap : Snapshot)
    (newId baseId oursId resolveNewId : String) (decisions : List Decision)
    (bc oc tc : Commit)
    (hbr : lookupA st.branches branch = some (some h))
    (hne : e ≠ h) (hho : h ≠ "")
    (hb : lookupA st.commits baseId = some bc)
    (ho : lookupA st.commits oursId = some oc)
    (ht : lookupA st.commits e = some tc) :
    pushHandler st branch (some e) snap newId = (PushResult.nonFastForward (some h), st)
    ∧ mergeResolveHandler st baseId oursId e branch decisions resolveNewId
        = (ResolveResult.nonFastForward none, st) := by
  constructor
  · unfold pushHandler
    rw [hbr]
    simp only []
    have hm : pushMismatch (some h) (some e) = true := by
      simp [pushMismatch]
      exact fun x => hne x.symm
    rw [hm]
    simp
  · unfold mergeResolveHandler
    rw [hb, ho, ht, hbr]
    simp only []
    have hrb : resolveBlocked (some h) e = true := by
      simp [resolveBlocked, hho]
      exact fun x => hne x.symm
    rw [hrb]
    simp

/-- Claim C3, witness. The amended theorem applied to a concrete repository
whose branch main is at h0 while a push and a merge-resolve both expect t0. -/
theorem C3_witness :
    pushHandler c3state "main" (some "t0") blankSnap "n1"
      = (PushResult.nonFastForward (some "h0"), c3state)
    ∧ mergeResolveHandler c3state "b0" "o0" "t0" "main" [] "n2"
      = (ResolveResult.nonFastForward none, c3state) :=
  C3_theorem c3state "main" "t0" "h0" blankSnap "n1" "b0" "o0" "n2" []
    c3commit c3commit c3commit (by decide) (by decide) (by decide)
    (by decide) (by decide) (by decide)

/-- Claim C4. For every linear chain of four commits A←B←C←D (distinct
non-empty ids, each commit the sole parent of the next, A a root) stored as
the commit graph, findLCA (the merge base) of C and D is C. -/
theorem C4_theorem (i1 i2 i3 i4 : String) (s1 s2 s3 s4 : Snapshot) (k1 k2 k3 k4 : KeyChange)
    (h1 : i1 ≠ "") (h2 : i2 ≠ "") (h3 : i3 ≠ "") (h4 : i4 ≠ "")
    (d12 : i1 ≠ i2) (d13 : i1 ≠ i3) (d14 : i1 ≠ i4)
    (d23 : i2 ≠ i3) (d24 : i2 ≠ i4) (d34 : i3 ≠ i4) :
    findLCA [(i1, { parents := [], snapshot := s1, keyChange := k1 }),
             (i2, { parents := [i1], snapshot := s2, keyChange := k2 }),
             (i3, { parents := [i2], snapshot := s3, keyChange := k3 }),
             (i4, { parents := [i3], snapshot := s4, keyChange := k4 })] i3 i4 = some i3 := by
  set chain : List (String × Commit) :=
    [(i1, { parents := [], snapshot := s1, keyChange := k1 }),
     (i2, { parents := [i1], snapshot := s2, keyChange := k2 }),
     (i3, { parents := [i2], snapshot := s3, keyChange := k3 }),
     (i4, { parents := [i3], snapshot := s4, keyChange := k4 })] with hchain
  have hfuel : graphFuel chain = 9 := rfl
  have hp1 : parentsOf chain i1 = [] := by
    simp [parentsOf, lookupA, hchain]
  have hp2 : parentsOf chain i2 = [i1] := by
    simp [parentsOf, lookupA, hchain, d12]
  have hp3 : parentsOf chain i3 = [i2] := by
    simp [parentsOf, lookupA, hchain, d13, d23]
  have hp4 : parentsOf chain i4 = [i3] := by
    simp [parentsOf, lookupA, hchain, d14, d24, d34]
  have hanc : ancestorsSet chain i3 = [i3, i2, i1] := by
    unfold ancestorsSet
    rw [hfuel]
    rw [show (9:Nat) = 8 + 1 from rfl,
        ancestorsSetAux_visit _ _ _ _ _ (by simp [h3])]
    rw [hp3]
    simp only [List.nil_append]
    rw [show (8:Nat) = 7 + 1 from rfl,
        ancestorsSetAux_visit _ _ _ _ _ (by simp [h2, d23])]
    rw [hp2]
    simp only [List.nil_append, List.singleton_append]
    rw [show (7:Nat) = 6 + 1 from rfl,
        ancestorsSetAux_visit _ _ _ _ _ (by simp [h1, d12, d13])]
    rw [hp1]
    simp only [List.nil_append, List.append_nil]
    rw [ancestorsSetAux_stop]
    rfl
  unfold findLCA
  rw [if_neg (by simp [h3, h4])]
  rw [hanc, hfuel]
  rw [show (9:Nat) = 8 + 1 from rfl,
      findLCAAux_visit _ _ _ _ _ _ (by simp [h4]) (by simp [d14.symm, d24.symm, d34.symm])]
  rw [hp4]
  simp only [List.nil_append]
  rw [findLCAAux_found _ _ _ _ _ _ (by simp [h3, d34]) (by simp)]

/-- Claim C4, witness. The chain theorem applied at ids a, b, c, d. -/
theorem C4_witness :
    findLCA [("a", { parents := [], snapshot := blankSnap, keyChange := kcZero }),
             ("b", { parents := ["a"], snapshot := blankSnap, keyChange := kcZero }),
             ("c", { parents := ["b"], snapshot := blankSnap, keyChange := kcZero }),
             ("d", { parents := ["c"], snapshot := blankSnap, keyChange := kcZero })] "c" "d"
      = some "c" :=
  C4_theorem "a" "b" "c" "d" blankSnap blankSnap blankSnap blankSnap kcZero kcZero kcZero kcZero
    (by decide) (by decide) (by decide) (by decide) (by decide) (by decide) (by decide)
    (by decide) (by decide) (by decide)

/-- Claim C5. When base contains stop X, ours deleted X and theirs edited
X's stayMin, threeWayMerge produces exactly one conflict, of type
plan-stop-delete; applying the resolution with choice "theirs" yields a
merged plan containing theirs' edited X, while choice "ours" yields a merged
plan from which X is removed. -/
theorem C5_theorem (f : FileMap) (m m2 : Int) (hne : ¬ m = m2) :
    (mergeSnapshots (c1snap f "10:00" m) (c5ours f) (c1snap f "10:00" m2)).conflicts
      = [stopConflict "plan-stop-delete" (some "d1") "s1"
          (some (c1stop "10:00" m)) none (some (c1stop "10:00" m2))]
    ∧ (applyDecisions (c1snap f "10:00" m) (c5ours f) (c1snap f "10:00" m2)
        (mergeSnapshots (c1snap f "10:00" m) (c5ours f) (c1snap f "10:00" m2)).snapshot
        [c5dec "theirs"]).plan
      = some { days := [{ id := some "d1", date := "2025-06-01", stops := [c1stop "10:00" m2] }],
               transport := none }
    ∧ (applyDecisions (c1snap f "10:00" m) (c5ours f) (c1snap f "10:00" m2)
        (mergeSnapshots (c1snap f "10:00" m) (c5ours f) (c1snap f "10:00" m2)).snapshot
        [c5dec "ours"]).plan
      = some { days := [{ id := some "d1", date := "2025-06-01", stops := [] }],
               transport := none } := by
  have hct : decide (¬ (some (c1stop "10:00" m) : Option Stop) = some (c1stop "10:00" m2)) = true := by
    simp [c1stop, hne]
  have hplan : mergePlan (c1snap f "10:00" m).plan (c5ours f).plan (c1snap f "10:00" m2).plan
      = (some { days := [{ id := some "d1", date := "2025-06-01", stops := [c1stop "10:00" m] }],
                transport := none },
         [stopConflict "plan-stop-delete" (some "d1") "s1"
          (some (c1stop "10:00" m)) none (some (c1stop "10:00" m2))],
         ((c1snap f "10:00" m).plan, (c5ours f).plan, (c1snap f "10:00" m2).plan)) := by
    unfold mergePlan
    rw [if_neg (by simp [c1snap])]
    rw [if_neg (by rintro ⟨hh, -⟩; simp [c1snap, c5ours, c1day, c1stop] at hh)]
    rw [if_neg (by rintro ⟨hh, -⟩; simp [c1snap, c1day, c1stop, hne] at hh)]
    rw [if_neg (by intro hh; simp [c1snap, c5ours, c1day, c1stop] at hh)]
    have hk1 : planKeySet (c1snap f "10:00" m).plan = planKeySet (c1snap f "10:00" m2).plan := rfl
    rw [hk1]
    simp only [setsEqual_self, Bool.not_true, Bool.and_false, Bool.false_and,
      Bool.false_eq_true, if_false]
    simp only [mergePlanStructured, daysOf, loopDays, stepDay, mergeStops, hct]
    simp [c1snap, c1day, c1stop, c5ours, byKey, stableKey, assignId, idOf, dedup, dedupAux, keysA,
      fromEntries, setA, lookupA, findDay, timeEq, orS, oStr, spreadOpt, spreadStop, stopConflict,
      replaceDay, stopEmpty, hne]
  have hsnap : (mergeSnapshots (c1snap f "10:00" m) (c5ours f) (c1snap f "10:00" m2)).snapshot
      = { files := (applyFileChanges f f (diffMaps f f f)).1,
          plan := some { days := [{ id := some "d1", date := "2025-06-01",
                                    stops := [c1stop "10:00" m] }],
                         transport := none } } := by
    show ({ files := (applyFileChanges f f (diffMaps f f f)).1,
            plan := (mergePlan (c1snap f "10:00" m).plan (c5ours f).plan
                      (c1snap f "10:00" m2).plan).1 } : Snapshot) = _
    rw [hplan]
  refine ⟨?_, ?_, ?_⟩
  · show (applyFileChanges f f (diffMaps f f f)).2
      ++ (mergePlan (c1snap f "10:00" m).plan (c5ours f).plan (c1snap f "10:00" m2).plan).2.1 = _
    rw [applyFileChanges_noBoth _ _ (diffMaps_self_noBoth _ _) _, hplan]
    rfl
  · rw [hsnap]
    simp [applyDecisions, applyDecision, c5dec, pickSide, findDay, c1snap, c1day, c1stop,
      replaceFirstStop, removeFirstStop, replaceDay, lookupA]
  · rw [hsnap]
    simp [applyDecisions, applyDecision, c5dec, pickSide, findDay, c1snap, c1day, c1stop, c5ours,
      replaceFirstStop, removeFirstStop, replaceDay, lookupA]

/-- Claim C5, witness. The delete-vs-edit theorem applied at empty files and
stayMin values 60 and 90. -/
theorem C5_witness :
    (mergeSnapshots (c1snap [] "10:00" 60) (c5ours []) (c1snap [] "10:00" 90)).conflicts
      = [stopConflict "plan-stop-delete" (some "d1") "s1"
          (some (c1stop "10:00" 60)) none (some (c1stop "10:00" 90))]
    ∧ (applyDecisions (c1snap [] "10:00" 60) (c5ours []) (c1snap [] "10:00" 90)
        (mergeSnapshots (c1snap [] "10:00" 60) (c5ours []) (c1snap [] "10:00" 90)).snapshot
        [c5dec "theirs"]).plan
      = some { days := [{ id := some "d1", date := "2025-06-01", stops := [c1stop "10:00" 90] }],
               transport := none }
    ∧ (applyDecisions (c1snap [] "10:00" 60) (c5ours []) (c1snap [] "10:00" 90)
        (mergeSnapshots (c1snap [] "10:00" 60) (c5ours []) (c1snap [] "10:00" 90)).snapshot
        [c5dec "ours"]).plan
      = some { days := [{ id := some "d1", date := "2025-06-01", stops := [] }],
               transport := none } :=
  C5_theorem [] 60 90 (by decide)

/-- Claim C6, counterexample. threeWayMerge is not read-only: merging three
snapshots whose single stop lacks an id reaches the structured per-stop
merge, whose byKey assigns the synthetic stable id onto the input stops in
place, so the ours input snapshot is modified by the call. -/
theorem C6_counterexample :
    ¬ (mergeSnapshotsFull (c6snap c6stop) (c6snap { c6stop with arrive := some "09:30" })
        (c6snap { c6stop with stayMin := some 45 })).2.2.1
      = c6snap { c6stop with arrive := some "09:30" } := by
  decide

/-- Claim C6, amended. threeWayMerge leaves its three input snapshots
unmodified except for assigning a synthetic id in place to stops that lack
one: whenever every stop of all three plans already has a truthy id, the
inputs are left exactly unchanged. -/
theorem C6_theorem (b o t : Snapshot)
    (hb : planHasIds b.plan = true) (ho : planHasIds o.plan = true)
    (ht : planHasIds t.plan = true) :
    (mergeSnapshotsFull b o t).2 = (b, o, t) := by
  have hp := mergePlan_frame b.plan o.plan t.plan hb ho ht
  show ({ b with plan := (mergePlan b.plan o.plan t.plan).2.2.1 },
        { o with plan := (mergePlan b.plan o.plan t.plan).2.2.2.1 },
        { t with plan := (mergePlan b.plan o.plan t.plan).2.2.2.2 }) = (b, o, t)
  rw [show (mergePlan b.plan o.plan t.plan).2.2.1 = b.plan from by rw [hp]]
  rw [show (mergePlan b.plan o.plan t.plan).2.2.2.1 = o.plan from by rw [hp]]
  rw [show (mergePlan b.plan o.plan t.plan).2.2.2.2 = t.plan from by rw [hp]]

/-- Claim C6, witness. The frame theorem applied to three one-stop snapshots
whose stops carry explicit ids. -/
theorem C6_witness :
    (mergeSnapshotsFull (c2snap "a") (c2snap "b") (c2snap "c")).2
      = (c2snap "a", c2snap "b", c2snap "c") :=
  C6_theorem (c2snap "a") (c2snap "b") (c2snap "c") (by decide) (by decide) (by decide)

/-- Claim C7, counterexample. A file conflict carries no base value: merging
three snapshots that change the same file differently yields a conflict list
whose element has base absent, refuting the claim that every conflict carries
all three of the base, ours and theirs values. -/
theorem C7_counterexample :
    ¬ ∀ c ∈ (mergeSnapshots c7base c7ours c7theirs).conflicts, c.base.isSome = true := by
  decide

/-- Claim C7, amended. Every conflict returned by threeWayMerge has a type
among file, plan-whole, plan-stop-time and plan-stop-delete, and carries the
fields its kind sets: file conflicts a path location with ours/theirs but no
base; plan-whole conflicts base, ours and theirs values but no location;
plan-stop-time conflicts a day/stop location with ours and theirs stops;
plan-stop-delete conflicts a day/stop location with the base stop and exactly
one of the ours/theirs stops. -/
theorem C7_theorem (b o t : Snapshot) :
    ∀ c ∈ (mergeSnapshots b o t).conflicts, conflictShape c := by
  intro c hc
  have hsplit : c ∈ (applyFileChanges b.files b.files (diffMaps b.files o.files t.files)).2
      ∨ c ∈ (mergePlan b.plan o.plan t.plan).2.1 := by
    rw [← List.mem_append]
    exact hc
  rcases hsplit with hc2 | hc2
  · obtain ⟨k, l, r, rfl⟩ := applyFileChanges_shape _ _ _ c hc2
    left
    simp [fileConflict, conflictShape]
  · exact mergePlan_shape _ _ _ c hc2

/-- Claim C7, witness. The shape theorem applied to the file conflict of the
concrete divergent-file merge. -/
theorem C7_witness :
    conflictShape (fileConflict "notes" (some (some "ours")) (some (some "theirs"))) :=
  C7_theorem c7base c7ours c7theirs _ (by decide)

/-- Claim C8. The change classifier computes
score = added + removed + 2|dayDelta| + (2 if pctChange at least 30%) and
autoFlag = (added+removed at least 3) or (|dayDelta| at least 1) or
(pctChange at least 30%), where a base stop count of zero counts as 100%
change when next is non-empty; and for the base plan of 5 stops over 2 days
against the next plan of the same stops plus 4 new over 2 days, score is at
least 4, autoFlag is set, and the reason string mentions
"Stops changed: +4 / -0". -/
theorem C8_theorem :
    (∀ b n : Snapshot,
      (computeKeyChange (some b) (some n)).score
        = (diffStopCounts (collectStopCounts (b.plan.getD emptyPlan))
             (collectStopCounts (n.plan.getD emptyPlan))).1
          + (diffStopCounts (collectStopCounts (b.plan.getD emptyPlan))
               (collectStopCounts (n.plan.getD emptyPlan))).2
          + 2 * (((collectStopCounts (n.plan.getD emptyPlan)).dayCount : Int)
               - ((collectStopCounts (b.plan.getD emptyPlan)).dayCount : Int)).natAbs
          + (if specPct (collectStopCounts (b.plan.getD emptyPlan)).total
                (collectStopCounts (n.plan.getD emptyPlan)).total ≥ 3/10 then 2 else 0)
      ∧ ((computeKeyChange (some b) (some n)).auto = 1 ↔
          ((diffStopCounts (collectStopCounts (b.plan.getD emptyPlan))
              (collectStopCounts (n.plan.getD emptyPlan))).1
           + (diffStopCounts (collectStopCounts (b.plan.getD emptyPlan))
                (collectStopCounts (n.plan.getD emptyPlan))).2 ≥ 3)
          ∨ ((((collectStopCounts (n.plan.getD emptyPlan)).dayCount : Int)
               - ((collectStopCounts (b.plan.getD emptyPlan)).dayCount : Int)).natAbs ≥ 1)
          ∨ specPct (collectStopCounts (b.plan.getD emptyPlan)).total
              (collectStopCounts (n.plan.getD emptyPlan)).total ≥ 3/10))
    ∧ 4 ≤ (computeKeyChange (some c8base) (some c8next)).score
    ∧ (computeKeyChange (some c8base) (some c8next)).auto = 1
    ∧ (∃ pre post, (computeKeyChange (some c8base) (some c8next)).reason
        = some (pre ++ "Stops changed: +4 / -0" ++ post)) :=
  ⟨computeKeyChange_formula,
   computeKeyChange_example.1, computeKeyChange_example.2.1, computeKeyChange_example.2.2⟩

/-- Claim C9. Merging a branch into itself is conflict-free: for every base
snapshot and every snapshot s, threeWayMerge(base, s, s) returns zero
conflicts and a merged plan equal to s's plan. -/
theorem C9_theorem (base s : Snapshot) :
    (mergeSnapshots base s s).conflicts = []
    ∧ (mergeSnapshots base s s).snapshot.plan = s.plan := by
  have hfiles : (applyFileChanges base.files base.files
      (diffMaps base.files s.files s.files)).2 = [] :=
    applyFileChanges_noBoth _ _ (diffMaps_self_noBoth _ _) _
  have hplan := mergePlan_self base.plan s.plan
  constructor
  · show (applyFileChanges base.files base.files
        (diffMaps base.files s.files s.files)).2
      ++ (mergePlan base.plan s.plan s.plan).2.1 = []
    rw [hfiles, hplan.2]
    rfl
  · exact hplan.1

/-- Claim C10. On the easy-save path, a writer that supplies no expected
prior head id, or targets a branch whose stored head is NULL, bypasses the
staleness check: the commit is accepted, parented on the branch's resolved
current head, and the branch head advances to it; NonFastForward is never
returned on that path (the branch is assumed well-formed: a stored head id,
when truthy, resolves in the commit store). -/
theorem C10_theorem (st : RepoState) (branch : String) (parentId : Option String)
    (clientPlan : Option Plan) (uuids : Nat → String) (newId : String) (brHead : Option String)
    (hbr : lookupA st.branches branch = some brHead)
    (hres : ∀ hid, idOf brHead = some hid → (lookupA st.commits hid).isSome = true)
    (hcond : parentId = none ∨ brHead = none) :
    (easySaveHandler st branch parentId clientPlan uuids newId).1
        = EasySaveResult.ok newId (idOf brHead) newId
    ∧ lookupA (easySaveHandler st branch parentId clientPlan uuids newId).2.branches branch
        = some (some newId)
    ∧ ∃ cmt, lookupA (easySaveHandler st branch parentId clientPlan uuids newId).2.commits newId
        = some cmt ∧ cmt.parents = (idOf brHead).toList := by
  unfold easySaveHandler
  rw [hbr]
  simp only []
  rcases hcond with rfl | rfl
  · cases ehd : idOf brHead with
    | none =>
      simp only []
      exact ⟨rfl, lookupA_setA_self _ _ _, ⟨_, lookupA_setA_self _ _ _, rfl⟩⟩
    | some hid =>
      simp only [hres hid ehd, if_true]
      exact ⟨rfl, lookupA_setA_self _ _ _, ⟨_, lookupA_setA_self _ _ _, rfl⟩⟩
  · cases ep : idOf parentId with
    | none =>
      exact ⟨rfl, lookupA_setA_self _ _ _, ⟨_, lookupA_setA_self _ _ _, rfl⟩⟩
    | some e =>
      exact ⟨rfl, lookupA_setA_self _ _ _, ⟨_, lookupA_setA_self _ _ _, rfl⟩⟩

/-- Claim C10, witness. Easy-save on a branch with a NULL stored head and no
expected parent id: accepted as a root commit, head advanced. -/
theorem C10_witness :
    (easySaveHandler c10state "main" none none c10uuids "n1").1
        = EasySaveResult.ok "n1" none "n1"
    ∧ lookupA (easySaveHandler c10state "main" none none c10uuids "n1").2.branches "main"
        = some (some "n1")
    ∧ ∃ cmt, lookupA (easySaveHandler c10state "main" none none c10uuids "n1").2.commits "n1"
        = some cmt ∧ cmt.parents = [] :=
  C10_theorem c10state "main" none none c10uuids "n1" none (by decide)
    (fun hid hh => nomatch hh) (Or.inl rfl)

end GiTrip
